import Mathlib

/-!
Formal model of the ACRN device-model block interface
(`devicemodel/hw/block_if.c`), used to check the natural-language
specification of the repository against the code.

The per-queue request lifecycle (`blockif_enqueue` / `blockif_dequeue` /
`blockif_complete`), the alignment/bounce computations, the discard
processing, the public submit/cancel entry points and the CHS helper are
translated directly from the C source.  Host-side effects (memory
allocation, positional reads, discard execution) are parameterized by
small environments that record the result of each call, so the control
flow of the C code can be followed faithfully.  `off_t` quantities are
modelled as `Nat`: every offset and length that reaches these functions
in valid executions is non-negative.
-/

set_option maxHeartbeats 1000000

namespace BlockIf

/-- `BLOCKIF_NUMTHR` from block_if.c (worker threads per queue). -/
abbrev BLOCKIF_NUMTHR : Nat := 8

/-- `BLOCKIF_MAXREQ = 64 + BLOCKIF_NUMTHR` from block_if.c. -/
abbrev BLOCKIF_MAXREQ : Nat := 64 + BLOCKIF_NUMTHR

/-- `DEV_BSIZE` (512 on Linux). -/
abbrev DEV_BSIZE : Nat := 512

/-- POSIX errno `ENOENT`. -/
abbrev ENOENT : Int := 2

/-- POSIX errno `E2BIG`. -/
abbrev E2BIG : Int := 7

/-- POSIX errno `ENOMEM`. -/
abbrev ENOMEM : Int := 12

/-- POSIX errno `EBUSY`. -/
abbrev EBUSY : Int := 16

/-- POSIX errno `EINVAL`. -/
abbrev EINVAL : Int := 22

/-- POSIX errno `EROFS`. -/
abbrev EROFS : Int := 30

/-- POSIX errno `EOPNOTSUPP`. -/
abbrev EOPNOTSUPP : Int := 95

/-- `enum blockop` from block_if.c. -/
inductive Blockop where
  | read
  | write
  | flush
  | discard
deriving DecidableEq, Repr

/-- `enum blockstat` from block_if.c. -/
inductive Blockstat where
  | free
  | block
  | pend
  | busy
  | done
deriving DecidableEq, Repr

/-- A record of `struct discard_range` (the layout virtio-blk places in
`iov[0]` for a multi-range discard). -/
structure DiscardRange where
  sector : Nat
  num_sectors : Nat
  flags : Nat
deriving DecidableEq, Repr

/-- `struct br_align_info`: the per-request alignment scratch area.
`bounce_allocated` models whether `bounce_iov.iov_base` is non-NULL. -/
structure BrAlignInfo where
  alignment : Nat
  is_offset_aligned : Bool
  is_iov_base_aligned : Bool
  is_iov_len_aligned : Bool
  need_conversion : Bool
  head : Nat
  tail : Nat
  org_size : Nat
  bounced_size : Nat
  aligned_dn_start : Nat
  aligned_dn_end : Nat
  bounce_allocated : Bool
  bounce_len : Nat
deriving DecidableEq, Repr

/-- An all-zero `br_align_info`, the state of the scratch area before
`blockif_init_alignment_info` runs. -/
def BrAlignInfo.zero : BrAlignInfo :=
  { alignment := 0, is_offset_aligned := false, is_iov_base_aligned := false,
    is_iov_len_aligned := false, need_conversion := false, head := 0, tail := 0,
    org_size := 0, bounced_size := 0, aligned_dn_start := 0, aligned_dn_end := 0,
    bounce_allocated := false, bounce_len := 0 }

/-- The fields of `struct blockif_req` the core reads.  `iov` is the
scatter-gather vector as (base address, length) pairs; `iovcnt` is its
length.  `ranges` holds the `struct discard_range` records stored in
`iov[0]` when the multi-range discard convention (`iovcnt == 1`) is used.
`id` stands for the identity of the request (the `breq` pointer in C),
used by enqueue bookkeeping and by `blockif_cancel` lookups. -/
structure BlockifReq where
  id : Nat
  qidx : Nat
  offset : Nat
  iov : List (Nat × Nat)
  resid : Nat
  ranges : List DiscardRange
  align_info : BrAlignInfo
deriving DecidableEq, Repr

/-- The fields of `struct blockif_ctxt` the modelled operations read. -/
structure BlockifCtxt where
  bq_num : Nat
  sectsz : Nat
  sub_file_start_lba : Nat
  size : Nat
  bypass_host_cache : Bool
  bst_block : Bool
  rdonly : Bool
  candiscard : Bool
  isblk : Bool
  max_discard_sectors : Nat
  max_discard_seg : Nat
  discard_sector_alignment : Nat
deriving DecidableEq, Repr

/-- Index of a `struct blockif_elem` inside the fixed `reqs` array of a
queue. -/
abbrev SlotIdx := Fin BLOCKIF_MAXREQ

/-- `struct blockif_elem`: one ring position.  `req` is the request id
attached to the slot (`NULL` is `none`); `reqOffset` caches
`req->offset`, which `blockif_complete` reads through the pointer. -/
structure BlockifElem where
  req : Option Nat
  reqOffset : Nat
  op : Blockop
  status : Blockstat
  tid : Nat
  block : Nat
deriving DecidableEq, Repr

/-- The per-queue state: the slot array plus the three intrusive lists
(`freeq`, `pendq`, `busyq`), each a list of slot indices. -/
structure BlockifQueue where
  elems : SlotIdx → BlockifElem
  freeq : List SlotIdx
  pendq : List SlotIdx
  busyq : List SlotIdx

/-- The queue state `blockif_open` builds: every slot `BST_FREE`, all
slots pushed on `freeq` with `TAILQ_INSERT_HEAD` for `i = 0, 1, ...`
(hence in reverse index order), `pendq` and `busyq` empty. -/
def initQueue : BlockifQueue :=
  { elems := fun _ =>
      { req := none, reqOffset := 0, op := Blockop.read,
        status := Blockstat.free, tid := 0, block := 0 },
    freeq := (List.finRange BLOCKIF_MAXREQ).reverse,
    pendq := [],
    busyq := [] }

/-- The overlap key `blockif_enqueue` stores in `be->block`: for
READ/WRITE/DISCARD it is `breq->offset` plus the sum of all
`iov[i].iov_len`; for every other op the code computes
`off = 1 << (sizeof(off_t) - 1)`, i.e. `1 <<< (8 - 1) = 128`
(the adjacent comment says `off = OFF_MAX`). -/
def blockif_block_key (op : Blockop) (breq : BlockifReq) : Nat :=
  match op with
  | Blockop.read | Blockop.write | Blockop.discard =>
      breq.offset + (breq.iov.map (fun v => v.2)).sum
  | _ => 1 <<< (8 - 1)

/-- `blockif_enqueue`: pop the head of `freeq` (returning false if the
list is empty or its head is not `BST_FREE`), fill the slot, and when
`bst_block` is on compute the overlap key and scan `pendq` then `busyq`
for a slot whose `block` equals the request's `offset`, marking the new
slot `BST_BLOCK` on a hit.  The slot is appended to the tail of `pendq`
and the returned flag is `be->status == BST_PEND`. -/
def blockif_enqueue (bst_block : Bool) (bq : BlockifQueue) (breq : BlockifReq)
    (op : Blockop) : BlockifQueue × Bool :=
  match bq.freeq with
  | [] => (bq, false)
  | be :: rest =>
    if (bq.elems be).status ≠ Blockstat.free then (bq, false)
    else
      let hit : Bool :=
        (bq.pendq.find? (fun t => decide ((bq.elems t).block = breq.offset))).isSome ||
        (bq.busyq.find? (fun t => decide ((bq.elems t).block = breq.offset))).isSome
      let e2 : BlockifElem :=
        { bq.elems be with
          req := some breq.id, reqOffset := breq.offset, op := op,
          block := if bst_block then blockif_block_key op breq
                   else (bq.elems be).block,
          status := if bst_block && hit then Blockstat.block else Blockstat.pend }
      ({ elems := fun i => if i = be then e2 else bq.elems i,
         freeq := rest,
         pendq := bq.pendq ++ [be],
         busyq := bq.busyq },
       decide (e2.status = Blockstat.pend))

/-- `blockif_dequeue`: find the first `BST_PEND` slot on `pendq`, move it
to the tail of `busyq`, mark it `BST_BUSY` and stamp the worker id. -/
def blockif_dequeue (bq : BlockifQueue) (t : Nat) :
    Option (BlockifQueue × SlotIdx) :=
  match bq.pendq.find? (fun i => decide ((bq.elems i).status = Blockstat.pend)) with
  | none => none
  | some be =>
    some ({ elems := fun i =>
                       if i = be then
                         { bq.elems i with status := Blockstat.busy, tid := t }
                       else bq.elems i,
            freeq := bq.freeq,
            pendq := bq.pendq.erase be,
            busyq := bq.busyq ++ [be] }, be)

/-- `blockif_complete`: remove the slot from `busyq` when its status is
`BST_DONE`/`BST_BUSY` and from `pendq` otherwise; when `bst_block` is on,
walk `pendq` and set to `BST_PEND` every slot whose request offset equals
the completing slot's `block`; finally clear the slot and append it to
the tail of `freeq`. -/
def blockif_complete (bst_block : Bool) (bq : BlockifQueue) (be : SlotIdx) :
    BlockifQueue :=
  let onBusy := (bq.elems be).status = Blockstat.done ∨
                (bq.elems be).status = Blockstat.busy
  let pendq1 := if onBusy then bq.pendq else bq.pendq.erase be
  let busyq1 := if onBusy then bq.busyq.erase be else bq.busyq
  let elems1 : SlotIdx → BlockifElem := fun i =>
    if bst_block = true ∧ i ∈ pendq1 ∧ (bq.elems i).reqOffset = (bq.elems be).block
    then { bq.elems i with status := Blockstat.pend }
    else bq.elems i
  { elems := fun i =>
      if i = be then
        { elems1 be with tid := 0, status := Blockstat.free, req := none }
      else elems1 i,
    freeq := bq.freeq ++ [be],
    pendq := pendq1,
    busyq := busyq1 }

/-- One queue operation, as invoked by the code: an enqueue from
`blockif_request`, a dequeue by a worker (`blockif_thr` / `iou_submit`),
or a completion.  The code calls `blockif_complete` only on slots it
found on `pendq` or `busyq` (a dequeued slot, or a cancel lookup), never
on a free slot; `apply` reflects that calling convention by guarding the
completion on the slot being non-free. -/
inductive QOp where
  | enq (breq : BlockifReq) (op : Blockop)
  | deq (t : Nat)
  | compl (be : SlotIdx)

/-- Apply one queue operation to a queue state. -/
def QOp.apply (bst_block : Bool) (bq : BlockifQueue) : QOp → BlockifQueue
  | QOp.enq breq op => (blockif_enqueue bst_block bq breq op).1
  | QOp.deq t =>
    match blockif_dequeue bq t with
    | some r => r.1
    | none => bq
  | QOp.compl be =>
    if (bq.elems be).status ≠ Blockstat.free then blockif_complete bst_block bq be
    else bq

/-- `discard_range_validate`: the start and size are floored to 512-byte
sector indices before the limit and alignment checks. -/
def discard_range_validate (bc : BlockifCtxt) (start size : Nat) : Int :=
  let start_sector := start / DEV_BSIZE
  let size_sector := size / DEV_BSIZE
  if size = 0 ∨ bc.size + bc.sub_file_start_lba < start + size then -1
  else if bc.max_discard_sectors < size_sector ∨
          (bc.discard_sector_alignment ≠ 0 ∧
           start_sector % bc.discard_sector_alignment ≠ 0) then -1
  else 0

/-- Results of the host deallocation calls (`ioctl(BLKDISCARD)` or
`fallocate` + `fdatasync`) issued by `blockif_process_discard`, indexed
by the order in which the ranges are executed; `0` means success. -/
structure DiscardEnv where
  execErr : Nat → Int

/-- The validation loop of `blockif_process_discard` for the multi-range
convention: each record yields the byte range
`(sector*512 + sub_file_start_lba, num_sectors*512)`; the running
segment count is checked against `max_discard_seg` and each range is
validated, `EINVAL` aborting the walk. -/
def discardBuildArgs (bc : BlockifCtxt) :
    List DiscardRange → Nat → Except Int (List (Nat × Nat))
  | [], _ => Except.ok []
  | r :: rest, segment =>
    let a0 := r.sector * DEV_BSIZE + bc.sub_file_start_lba
    let a1 := r.num_sectors * DEV_BSIZE
    if bc.max_discard_seg < segment + 1 then Except.error EINVAL
    else if discard_range_validate bc a0 a1 ≠ 0 then Except.error EINVAL
    else
      match discardBuildArgs bc rest (segment + 1) with
      | Except.error e => Except.error e
      | Except.ok l => Except.ok ((a0, a1) :: l)

/-- The execution loop of `blockif_process_discard`: deallocate each
range in order, stopping at the first host error.  Returns the final
error code and the list of ranges whose deallocation was issued. -/
def discardExec (env : DiscardEnv) :
    List (Nat × Nat) → Nat → Int × List (Nat × Nat)
  | [], _ => (0, [])
  | a :: rest, i =>
    let e := env.execErr i
    if e ≠ 0 then (e, [a])
    else
      let r := discardExec env rest (i + 1)
      (r.1, a :: r.2)

/-- `blockif_process_discard`.  Returns the error code, the list of byte
ranges whose deallocation was actually issued against the backing store,
and the final `resid`.  The multi-range convention (`iovcnt == 1`) walks
the records of `iov[0]` (modelled by `br.ranges`) through validation
before executing anything; the single-range convention (`iovcnt != 1`)
takes `(offset + sub_file_start_lba, resid)` directly. -/
def blockif_process_discard (env : DiscardEnv) (bc : BlockifCtxt)
    (br : BlockifReq) : Int × List (Nat × Nat) × Nat :=
  if bc.candiscard = false then (EOPNOTSUPP, [], br.resid)
  else if bc.rdonly = true then (EROFS, [], br.resid)
  else
    let built : Except Int (List (Nat × Nat)) :=
      if br.iov.length = 1 then discardBuildArgs bc br.ranges 0
      else Except.ok [(br.offset + bc.sub_file_start_lba, br.resid)]
    match built with
    | Except.error e => (e, [], br.resid)
    | Except.ok args =>
      let r := discardExec env args 0
      if r.1 = 0 then (0, r.2, 0) else (r.1, r.2, br.resid)

/-- `blockif_init_iov_align_info`: sum the iov lengths into `org_size`
and record whether every iov base and every iov length is a multiple of
`alignment`. -/
def blockif_init_iov_align_info (br : BlockifReq) (info : BrAlignInfo) :
    BrAlignInfo :=
  { info with
    is_iov_base_aligned := br.iov.all (fun v => decide (v.1 % info.alignment = 0)),
    is_iov_len_aligned := br.iov.all (fun v => decide (v.2 % info.alignment = 0)),
    org_size := (br.iov.map (fun v => v.2)).sum }

/-- `blockif_init_alignment_info`: inert unless `bypass_host_cache`
(O_DIRECT) is set; otherwise computes the head/tail/bounce geometry from
`start = offset + sub_file_start_lba` against `alignment = sectsz`. -/
def blockif_init_alignment_info (bc : BlockifCtxt) (br : BlockifReq) :
    BrAlignInfo :=
  let info := br.align_info
  if bc.bypass_host_cache = false then { info with need_conversion := false }
  else
    let alignment := bc.sectsz
    let start := br.offset + bc.sub_file_start_lba
    let info := { info with
                  alignment := alignment,
                  is_offset_aligned := decide (start % alignment = 0) }
    let info := blockif_init_iov_align_info br info
    let all_aligned := info.is_offset_aligned && info.is_iov_base_aligned &&
                       info.is_iov_len_aligned
    if all_aligned then { info with need_conversion := false }
    else
      let head := start % alignment
      let stop := start + info.org_size
      let end_rmd := stop % alignment
      let tail := if end_rmd = 0 then 0 else alignment - end_rmd
      { info with
        need_conversion := true,
        head := head,
        aligned_dn_start := start - head,
        tail := tail,
        aligned_dn_end := stop - end_rmd,
        bounced_size := head + info.org_size + tail }

/-- Results of the host allocation and read calls made while preparing a
bounce buffer.  `posix_memalign` returns 0 on success and a positive
error number on failure; `preadv` failure is recorded as the (positive)
`errno`, success as 0. -/
structure AllocEnv where
  bounce : Int
  headArea : Int
  headRead : Int
  tailArea : Int
  tailRead : Int

/-- `blockif_init_bounce_iov`: allocate the aligned bounce buffer of
length `bounced_size`; on `posix_memalign` failure the (positive) error
number is returned and `bounce_iov.iov_base` stays NULL. -/
def blockif_init_bounce_iov (env : AllocEnv) (br : BlockifReq) :
    Int × BlockifReq :=
  if env.bounce ≠ 0 then (env.bounce, br)
  else
    (0, { br with
          align_info := { br.align_info with
                          bounce_allocated := true,
                          bounce_len := br.align_info.bounced_size } })

/-- `blockif_read_head_or_tail_area`: allocate one aligned unit and read
it; the result is `(ret, base_set)` where `ret` is the `posix_memalign`
error, or the read's `errno`, or 0, and `base_set` says whether
`b_iov->iov_base` was set (it is set as soon as the allocation
succeeds, even when the read then fails). -/
def blockif_read_head_or_tail_area (allocRes readRes : Int) : Int × Bool :=
  if allocRes ≠ 0 then (allocRes, false)
  else if readRes ≠ 0 then (readRes, true)
  else (0, true)

/-- The observable steps of `blockif_init_bounced_write`: the aligned
pre-reads of the head/tail areas and the three memcpy phases that build
the bounce buffer. -/
inductive BWAction where
  | readHeadArea
  | readTailArea
  | copyHead
  | copyBody
  | copyTail
deriving DecidableEq, Repr

/-- `blockif_init_bounced_write`: pre-read one aligned unit at
`aligned_dn_start` when `head != 0` and one at `aligned_dn_end` when
`tail != 0`, then build the bounce buffer (head bytes, the caller's
`iov[]`, tail bytes, in that order).  The returned action list records
which reads were attempted and which copy phases ran; the `Int` is the
code's `ret`.  Mirrors the source exactly, including the `ret < 0`
checks after each pre-read (`blockif_read_head_or_tail_area` reports
failures as positive values, so those checks never fire) and the
temporary head/tail buffers being freed at the `end` label. -/
def blockif_init_bounced_write (env : AllocEnv) (br : BlockifReq) :
    Int × List BWAction :=
  let info := br.align_info
  if info.bounce_allocated = false then (-1, [])
  else
    let headAttempt := info.head ≠ 0
    let headRes :=
      if headAttempt then blockif_read_head_or_tail_area env.headArea env.headRead
      else (0, false)
    let headActs : List BWAction :=
      if headAttempt ∧ env.headArea = 0 then [BWAction.readHeadArea] else []
    if headRes.1 < 0 then (headRes.1, headActs)
    else
      let tailAttempt := info.tail ≠ 0
      let tailRes :=
        if tailAttempt then blockif_read_head_or_tail_area env.tailArea env.tailRead
        else (headRes.1, false)
      let tailActs : List BWAction :=
        if tailAttempt ∧ env.tailArea = 0 then [BWAction.readTailArea] else []
      if tailRes.1 < 0 then (tailRes.1, headActs ++ tailActs)
      else
        let buildActs : List BWAction :=
          (if headRes.2 then [BWAction.copyHead] else []) ++
          [BWAction.copyBody] ++
          (if tailRes.2 then [BWAction.copyTail] else [])
        (tailRes.1, headActs ++ tailActs ++ buildActs)

/-- `blockif_request` (the common body of `blockif_read` / `blockif_write`
/ `blockif_flush` / `blockif_discard`): validate `qidx`, compute the
alignment info, allocate the bounce buffer for a misaligned READ/WRITE
and fill it for a WRITE (each step checked with `err < 0`), then under
the queue lock enqueue if `freeq` is non-empty (waking the backend when
the new slot is `BST_PEND`) or fail with `E2BIG`.  The returned queue is
the (possibly updated) queue state. -/
def blockif_request (env : AllocEnv) (bc : BlockifCtxt) (bq : BlockifQueue)
    (breq : BlockifReq) (op : Blockop) : BlockifQueue × Int :=
  if bc.bq_num ≤ breq.qidx then (bq, ENOENT)
  else
    let br := { breq with align_info := blockif_init_alignment_info bc breq }
    let setup : Sum Int (Int × BlockifReq) :=
      if (op = Blockop.read ∨ op = Blockop.write) ∧
         br.align_info.need_conversion = true then
        let r1 := blockif_init_bounce_iov env br
        if r1.1 < 0 then Sum.inl r1.1
        else if op = Blockop.write then
          let r2 := blockif_init_bounced_write env r1.2
          if r2.1 < 0 then Sum.inl r2.1 else Sum.inr (r2.1, r1.2)
        else Sum.inr (r1.1, r1.2)
      else Sum.inr (0, br)
    match setup with
    | Sum.inl e => (bq, e)
    | Sum.inr er =>
      if bq.freeq ≠ [] then
        ((blockif_enqueue bc.bst_block bq er.2 op).1, er.1)
      else (bq, E2BIG)

/-- `blockif_cancel`: validate `qidx` (`ENOENT` on failure), then look
for the request's slot on `pendq` (complete it immediately and return 0;
no I/O was issued and no callback fires) and on `busyq`.  A busy slot
makes the canceller wait — registering signal elements and delivering
SIGCONT to the worker — until the slot leaves `BST_BUSY`, after which
`-EBUSY` is returned; the waiting itself is inter-thread and leaves the
queue state to the worker, so the model returns the queue unchanged.  A
slot on neither list yields `-1`. -/
def blockif_cancel (bc : BlockifCtxt) (bq : BlockifQueue) (breq : BlockifReq) :
    BlockifQueue × Int :=
  if bc.bq_num ≤ breq.qidx then (bq, ENOENT)
  else
    match bq.pendq.find? (fun i => decide ((bq.elems i).req = some breq.id)) with
    | some be => (blockif_complete bc.bst_block bq be, 0)
    | none =>
      match bq.busyq.find? (fun i => decide ((bq.elems i).req = some breq.id)) with
      | none => (bq, -1)
      | some _ => (bq, -EBUSY)

/-- `blockif_chs`: virtual C/H/S for the device size, translated from
the source.  Returns (cylinders, heads, sectors-per-track). -/
def blockif_chs (bc : BlockifCtxt) : Nat × Nat × Nat :=
  let sectors0 := bc.size / bc.sectsz
  let sectors := if 65535 * 16 * 255 < sectors0 then 65535 * 16 * 255 else sectors0
  if 65536 * 16 * 63 ≤ sectors then
    ((sectors / 255) / 16, 16, 255)
  else
    let secpt := 17
    let hcyl := sectors / secpt
    let heads0 := (hcyl + 1023) / 1024
    let heads := if heads0 < 4 then 4 else heads0
    let promote1 := heads * 1024 ≤ hcyl ∨ 16 < heads
    let secpt1 := if promote1 then 31 else secpt
    let heads1 := if promote1 then 16 else heads
    let hcyl1 := if promote1 then sectors / 31 else hcyl
    let promote2 := heads1 * 1024 ≤ hcyl1
    let secpt2 := if promote2 then 63 else secpt1
    let heads2 := if promote2 then 16 else heads1
    let hcyl2 := if promote2 then sectors / 63 else hcyl1
    (hcyl2 / heads2, heads2, secpt2)

/-- The C/H/S computation as the specification words it (the standard
VHD algorithm): clamp total sectors to `65535*16*255`; at or above
`65536*16*63` use (spt 255, 16 heads); otherwise start from spt 17,
derive `heads = ceil((sectors/spt) / 1024)` floored to at least 4, and
promote to (31, 16) and then (63, 16) while cylinders-times-heads
reaches `1024 * heads` (or heads exceed 16); cylinders are
`(sectors / spt) / heads`. -/
def blockif_chs_vhd (bc : BlockifCtxt) : Nat × Nat × Nat :=
  let sectors := min (bc.size / bc.sectsz) (65535 * 16 * 255)
  if 65536 * 16 * 63 ≤ sectors then
    ((sectors / 255) / 16, 16, 255)
  else
    let heads := max ((sectors / 17) ⌈/⌉ (1024 : Nat)) 4
    let promote1 := 1024 * heads ≤ sectors / 17 ∨ 16 < heads
    let secpt1 := if promote1 then 31 else 17
    let heads1 := if promote1 then 16 else heads
    let promote2 := 1024 * heads1 ≤ sectors / secpt1
    let secpt2 := if promote2 then 63 else secpt1
    let heads2 := if promote2 then 16 else heads1
    ((sectors / secpt2) / heads2, heads2, secpt2)

end BlockIf

namespace BlockIf

/-- The structural invariant of a queue: the three intrusive lists are
duplicate-free and pairwise disjoint, every slot index is on one of
them, and each list holds exactly the slots of its status class
(`BST_FREE` on `freeq`; `BST_PEND`/`BST_BLOCK` on `pendq`;
`BST_BUSY`/`BST_DONE` on `busyq`). -/
structure QInv (bq : BlockifQueue) : Prop where
  nodupF : bq.freeq.Nodup
  nodupP : bq.pendq.Nodup
  nodupB : bq.busyq.Nodup
  disjFP : ∀ i ∈ bq.freeq, i ∉ bq.pendq
  disjFB : ∀ i ∈ bq.freeq, i ∉ bq.busyq
  disjPB : ∀ i ∈ bq.pendq, i ∉ bq.busyq
  cover : ∀ i : SlotIdx, i ∈ bq.freeq ∨ i ∈ bq.pendq ∨ i ∈ bq.busyq
  statF : ∀ i ∈ bq.freeq, (bq.elems i).status = Blockstat.free
  statP : ∀ i ∈ bq.pendq,
    (bq.elems i).status = Blockstat.pend ∨ (bq.elems i).status = Blockstat.block
  statB : ∀ i ∈ bq.busyq,
    (bq.elems i).status = Blockstat.busy ∨ (bq.elems i).status = Blockstat.done

/-- Appending a fresh element to a duplicate-free list keeps it
duplicate-free. -/
theorem nodup_snoc {α : Type} [DecidableEq α] {l : List α} {a : α}
    (h : l.Nodup) (ha : a ∉ l) : (l ++ [a]).Nodup := by
  rw [List.nodup_append]
  exact ⟨h, List.nodup_singleton a, fun x hx hxa => ha ((List.mem_singleton.mp hxa) ▸ hx)⟩

/-- The queue state built by `blockif_open` satisfies the invariant. -/
theorem qinv_init : QInv initQueue := by
  refine ⟨?_, ?_, ?_, ?_, ?_, ?_, ?_, ?_, ?_, ?_⟩
  · exact List.nodup_reverse.mpr (List.nodup_finRange _)
  · exact List.nodup_nil
  · exact List.nodup_nil
  · intro i _ hi; exact absurd hi (List.not_mem_nil i)
  · intro i _ hi; exact absurd hi (List.not_mem_nil i)
  · intro i hi; exact absurd hi (List.not_mem_nil i)
  · intro i
    exact Or.inl (by simp [initQueue])
  · intro i _; rfl
  · intro i hi; exact absurd hi (List.not_mem_nil i)
  · intro i hi; exact absurd hi (List.not_mem_nil i)

/-- `blockif_enqueue` preserves the queue invariant. -/
theorem QInv.enqueue_preserved {bq : BlockifQueue} (h : QInv bq) (bst : Bool)
    (breq : BlockifReq) (op : Blockop) :
    QInv (blockif_enqueue bst bq breq op).1 := by
  rcases hf : bq.freeq with _ | ⟨be, rest⟩
  · simpa [blockif_enqueue, hf] using h
  · have hbe : be ∈ bq.freeq := by rw [hf]; exact List.mem_cons_self _ _
    have hstat : (bq.elems be).status = Blockstat.free := h.statF be hbe
    have hnotP : be ∉ bq.pendq := h.disjFP be hbe
    have hnotB : be ∉ bq.busyq := h.disjFB be hbe
    have hnodF := h.nodupF
    rw [hf, List.nodup_cons] at hnodF
    have hrestSub : ∀ i ∈ rest, i ∈ bq.freeq := by
      intro i hi; rw [hf]; exact List.mem_cons_of_mem _ hi
    have hfq : (blockif_enqueue bst bq breq op).1.freeq = rest := by
      simp [blockif_enqueue, hf, hstat]
    have hpq : (blockif_enqueue bst bq breq op).1.pendq = bq.pendq ++ [be] := by
      simp [blockif_enqueue, hf, hstat]
    have hbq : (blockif_enqueue bst bq breq op).1.busyq = bq.busyq := by
      simp [blockif_enqueue, hf, hstat]
    have helems : ∀ i, i ≠ be →
        (blockif_enqueue bst bq breq op).1.elems i = bq.elems i := by
      intro i hne
      simp [blockif_enqueue, hf, hstat, hne]
    have hbeStat : ((blockif_enqueue bst bq breq op).1.elems be).status = Blockstat.pend ∨
        ((blockif_enqueue bst bq breq op).1.elems be).status = Blockstat.block := by
      simp only [blockif_enqueue, hf, hstat, ne_eq, not_true_eq_false, if_false, reduceIte]
      by_cases hb : (bst && ((bq.pendq.find? (fun t => decide ((bq.elems t).block = breq.offset))).isSome ||
          (bq.busyq.find? (fun t => decide ((bq.elems t).block = breq.offset))).isSome)) = true
      · right; simp [hb]
      · left; simp [hb]
    refine ⟨?_, ?_, ?_, ?_, ?_, ?_, ?_, ?_, ?_, ?_⟩
    · rw [hfq]; exact hnodF.2
    · rw [hpq]; exact nodup_snoc h.nodupP hnotP
    · rw [hbq]; exact h.nodupB
    · rw [hfq, hpq]
      intro i hi hmem
      rcases List.mem_append.mp hmem with hm | hm
      · exact h.disjFP i (hrestSub i hi) hm
      · exact hnodF.1 ((List.mem_singleton.mp hm) ▸ hi)
    · rw [hfq, hbq]
      intro i hi
      exact h.disjFB i (hrestSub i hi)
    · rw [hpq, hbq]
      intro i hi hmem
      rcases List.mem_append.mp hi with hm | hm
      · exact h.disjPB i hm hmem
      · exact hnotB ((List.mem_singleton.mp hm) ▸ hmem)
    · rw [hfq, hpq, hbq]
      intro i
      rcases h.cover i with hc | hc | hc
      · rw [hf] at hc
        rcases List.mem_cons.mp hc with rfl | hc
        · exact Or.inr (Or.inl (List.mem_append.mpr (Or.inr (List.mem_singleton.mpr rfl))))
        · exact Or.inl hc
      · exact Or.inr (Or.inl (List.mem_append.mpr (Or.inl hc)))
      · exact Or.inr (Or.inr hc)
    · rw [hfq]
      intro i hi
      have hne : i ≠ be := fun he => hnodF.1 (he ▸ hi)
      rw [helems i hne]
      exact h.statF i (hrestSub i hi)
    · rw [hpq]
      intro i hi
      rcases List.mem_append.mp hi with hm | hm
      · have hne : i ≠ be := fun he => hnotP (he ▸ hm)
        rw [helems i hne]
        exact h.statP i hm
      · have heq : i = be := List.mem_singleton.mp hm
        subst heq
        exact hbeStat
    · rw [hbq]
      intro i hi
      have hne : i ≠ be := fun he => hnotB (he ▸ hi)
      rw [helems i hne]
      exact h.statB i hi

/-- `blockif_complete` preserves the queue invariant, for any slot that
is not free (the code only completes slots it found on `pendq` or
`busyq`). -/
theorem QInv.complete_preserved {bq : BlockifQueue} (h : QInv bq) (bst : Bool)
    (be : SlotIdx) (hne : (bq.elems be).status ≠ Blockstat.free) :
    QInv (blockif_complete bst bq be) := by
  have hbe_nf : be ∉ bq.freeq := fun hm => hne (h.statF be hm)
  have hbeElem : ((blockif_complete bst bq be).elems be).status = Blockstat.free := by
    simp [blockif_complete]
  by_cases hbd : (bq.elems be).status = Blockstat.done ∨ (bq.elems be).status = Blockstat.busy
  · -- the slot is on busyq
    have hbe_np : be ∉ bq.pendq := by
      intro hm
      rcases h.statP be hm with hs | hs <;> rcases hbd with h1 | h1 <;> rw [hs] at h1 <;>
        exact absurd h1 (by decide)
    have hbe_b : be ∈ bq.busyq := by
      rcases h.cover be with hc | hc | hc
      · exact absurd hc hbe_nf
      · exact absurd hc hbe_np
      · exact hc
    have hfq : (blockif_complete bst bq be).freeq = bq.freeq ++ [be] := by
      simp [blockif_complete]
    have hpq : (blockif_complete bst bq be).pendq = bq.pendq := by
      simp [blockif_complete, hbd]
    have hbq : (blockif_complete bst bq be).busyq = bq.busyq.erase be := by
      simp [blockif_complete, hbd]
    have helemNoProm : ∀ i, i ≠ be → i ∉ bq.pendq →
        (blockif_complete bst bq be).elems i = bq.elems i := by
      intro i hni hnp
      have hnp1 : i ∉ (if (bq.elems be).status = Blockstat.done ∨
          (bq.elems be).status = Blockstat.busy then bq.pendq else bq.pendq.erase be) := by
        simp only [hbd, if_true, reduceIte]
        exact hnp
      simp [blockif_complete, hni, hnp1]
    have helemStat : ∀ i, i ≠ be →
        ((blockif_complete bst bq be).elems i).status = (bq.elems i).status ∨
        ((blockif_complete bst bq be).elems i).status = Blockstat.pend := by
      intro i hni
      by_cases hc : bst = true ∧ i ∈ (if (bq.elems be).status = Blockstat.done ∨
          (bq.elems be).status = Blockstat.busy then bq.pendq else bq.pendq.erase be) ∧
          (bq.elems i).reqOffset = (bq.elems be).block
      · right; simp [blockif_complete, hni, hc]
      · left; simp [blockif_complete, hni, hc]
    refine ⟨?_, ?_, ?_, ?_, ?_, ?_, ?_, ?_, ?_, ?_⟩
    · rw [hfq]; exact nodup_snoc h.nodupF hbe_nf
    · rw [hpq]; exact h.nodupP
    · rw [hbq]; exact h.nodupB.erase be
    · rw [hfq, hpq]
      intro i hi
      rcases List.mem_append.mp hi with hm | hm
      · exact h.disjFP i hm
      · exact (List.mem_singleton.mp hm) ▸ hbe_np
    · rw [hfq, hbq]
      intro i hi hm2
      rcases List.mem_append.mp hi with hm | hm
      · exact h.disjFB i hm (List.mem_of_mem_erase hm2)
      · exact ((h.nodupB.mem_erase_iff).mp ((List.mem_singleton.mp hm) ▸ hm2)).1 rfl
    · rw [hpq, hbq]
      intro i hi hm2
      exact h.disjPB i hi (List.mem_of_mem_erase hm2)
    · rw [hfq, hpq, hbq]
      intro i
      rcases h.cover i with hc | hc | hc
      · exact Or.inl (List.mem_append.mpr (Or.inl hc))
      · exact Or.inr (Or.inl hc)
      · by_cases hib : i = be
        · exact Or.inl (List.mem_append.mpr (Or.inr (List.mem_singleton.mpr hib)))
        · exact Or.inr (Or.inr ((h.nodupB.mem_erase_iff).mpr ⟨hib, hc⟩))
    · rw [hfq]
      intro i hi
      rcases List.mem_append.mp hi with hm | hm
      · have hni : i ≠ be := fun he => hbe_nf (he ▸ hm)
        rw [helemNoProm i hni (h.disjFP i hm)]
        exact h.statF i hm
      · rw [List.mem_singleton.mp hm]
        exact hbeElem
    · rw [hpq]
      intro i hi
      have hni : i ≠ be := fun he => hbe_np (he ▸ hi)
      rcases helemStat i hni with he | he
      · rw [he]; exact h.statP i hi
      · exact Or.inl he
    · rw [hbq]
      intro i hi
      have hm := (h.nodupB.mem_erase_iff).mp hi
      have hnp : i ∉ bq.pendq := fun hp => h.disjPB i hp hm.2
      rw [helemNoProm i hm.1 hnp]
      exact h.statB i hm.2
  · -- the slot is on pendq
    have hsP : (bq.elems be).status = Blockstat.pend ∨
        (bq.elems be).status = Blockstat.block := by
      cases hst : (bq.elems be).status with
      | free => exact absurd hst hne
      | block => exact Or.inr rfl
      | pend => exact Or.inl rfl
      | busy => exact absurd (Or.inr hst) hbd
      | done => exact absurd (Or.inl hst) hbd
    have hbe_nb : be ∉ bq.busyq := by
      intro hm
      rcases h.statB be hm with hs | hs <;> rcases hsP with h1 | h1 <;> rw [hs] at h1 <;>
        exact absurd h1 (by decide)
    have hbe_p : be ∈ bq.pendq := by
      rcases h.cover be with hc | hc | hc
      · exact absurd hc hbe_nf
      · exact hc
      · exact absurd hc hbe_nb
    have hfq : (blockif_complete bst bq be).freeq = bq.freeq ++ [be] := by
      simp [blockif_complete]
    have hpq : (blockif_complete bst bq be).pendq = bq.pendq.erase be := by
      simp [blockif_complete, hbd]
    have hbq : (blockif_complete bst bq be).busyq = bq.busyq := by
      simp [blockif_complete, hbd]
    have helemNoProm : ∀ i, i ≠ be → i ∉ bq.pendq →
        (blockif_complete bst bq be).elems i = bq.elems i := by
      intro i hni hnp
      have hnp1 : i ∉ (if (bq.elems be).status = Blockstat.done ∨
          (bq.elems be).status = Blockstat.busy then bq.pendq else bq.pendq.erase be) := by
        simp only [hbd, if_false, reduceIte]
        exact fun hm => hnp (List.mem_of_mem_erase hm)
      simp [blockif_complete, hni, hnp1]
    have helemStat : ∀ i, i ≠ be →
        ((blockif_complete bst bq be).elems i).status = (bq.elems i).status ∨
        ((blockif_complete bst bq be).elems i).status = Blockstat.pend := by
      intro i hni
      by_cases hc : bst = true ∧ i ∈ (if (bq.elems be).status = Blockstat.done ∨
          (bq.elems be).status = Blockstat.busy then bq.pendq else bq.pendq.erase be) ∧
          (bq.elems i).reqOffset = (bq.elems be).block
      · right; simp [blockif_complete, hni, hc]
      · left; simp [blockif_complete, hni, hc]
    refine ⟨?_, ?_, ?_, ?_, ?_, ?_, ?_, ?_, ?_, ?_⟩
    · rw [hfq]; exact nodup_snoc h.nodupF hbe_nf
    · rw [hpq]; exact h.nodupP.erase be
    · rw [hbq]; exact h.nodupB
    · rw [hfq, hpq]
      intro i hi hm2
      rcases List.mem_append.mp hi with hm | hm
      · exact h.disjFP i hm (List.mem_of_mem_erase hm2)
      · exact ((h.nodupP.mem_erase_iff).mp ((List.mem_singleton.mp hm) ▸ hm2)).1 rfl
    · rw [hfq, hbq]
      intro i hi
      rcases List.mem_append.mp hi with hm | hm
      · exact h.disjFB i hm
      · exact (List.mem_singleton.mp hm) ▸ hbe_nb
    · rw [hpq, hbq]
      intro i hi
      exact h.disjPB i (List.mem_of_mem_erase hi)
    · rw [hfq, hpq, hbq]
      intro i
      rcases h.cover i with hc | hc | hc
      · exact Or.inl (List.mem_append.mpr (Or.inl hc))
      · by_cases hib : i = be
        · exact Or.inl (List.mem_append.mpr (Or.inr (List.mem_singleton.mpr hib)))
        · exact Or.inr (Or.inl ((h.nodupP.mem_erase_iff).mpr ⟨hib, hc⟩))
      · exact Or.inr (Or.inr hc)
    · rw [hfq]
      intro i hi
      rcases List.mem_append.mp hi with hm | hm
      · have hni : i ≠ be := fun he => hbe_nf (he ▸ hm)
        rw [helemNoProm i hni (h.disjFP i hm)]
        exact h.statF i hm
      · rw [List.mem_singleton.mp hm]
        exact hbeElem
    · rw [hpq]
      intro i hi
      have hm := (h.nodupP.mem_erase_iff).mp hi
      rcases helemStat i hm.1 with he | he
      · rw [he]; exact h.statP i hm.2
      · exact Or.inl he
    · rw [hbq]
      intro i hi
      have hni : i ≠ be := fun he => hbe_nb (he ▸ hi)
      have hnp : i ∉ bq.pendq := fun hp => h.disjPB i hp hi
      rw [helemNoProm i hni hnp]
      exact h.statB i hi

/-- Every queue operation, as invoked by the code, preserves the
invariant. -/
theorem QInv.apply_preserved {bq : BlockifQueue} (h : QInv bq) (bst : Bool)
    (o : QOp) : QInv (QOp.apply bst bq o) := by
  cases o with
  | enq breq op => exact h.enqueue_preserved bst breq op
  | deq t =>
    rcases hfind : bq.pendq.find?
        (fun i => decide ((bq.elems i).status = Blockstat.pend)) with _ | be
    · simpa [QOp.apply, blockif_dequeue, hfind] using h
    · have hbe_p : be ∈ bq.pendq := List.mem_of_find?_eq_some hfind
      have hbe_nb : be ∉ bq.busyq := h.disjPB be hbe_p
      have hfq : (QOp.apply bst bq (QOp.deq t)).freeq = bq.freeq := by
        simp [QOp.apply, blockif_dequeue, hfind]
      have hpq : (QOp.apply bst bq (QOp.deq t)).pendq = bq.pendq.erase be := by
        simp [QOp.apply, blockif_dequeue, hfind]
      have hbq : (QOp.apply bst bq (QOp.deq t)).busyq = bq.busyq ++ [be] := by
        simp [QOp.apply, blockif_dequeue, hfind]
      have helems : ∀ i, i ≠ be →
          (QOp.apply bst bq (QOp.deq t)).elems i = bq.elems i := by
        intro i hni
        simp [QOp.apply, blockif_dequeue, hfind, hni]
      have hbeStat : ((QOp.apply bst bq (QOp.deq t)).elems be).status = Blockstat.busy := by
        simp [QOp.apply, blockif_dequeue, hfind]
      refine ⟨?_, ?_, ?_, ?_, ?_, ?_, ?_, ?_, ?_, ?_⟩
      · rw [hfq]; exact h.nodupF
      · rw [hpq]; exact h.nodupP.erase be
      · rw [hbq]; exact nodup_snoc h.nodupB hbe_nb
      · rw [hfq, hpq]
        intro i hi hm2
        exact h.disjFP i hi (List.mem_of_mem_erase hm2)
      · rw [hfq, hbq]
        intro i hi hm2
        rcases List.mem_append.mp hm2 with hm | hm
        · exact h.disjFB i hi hm
        · exact h.disjFP i hi ((List.mem_singleton.mp hm) ▸ hbe_p)
      · rw [hpq, hbq]
        intro i hi hm2
        have hm := (h.nodupP.mem_erase_iff).mp hi
        rcases List.mem_append.mp hm2 with hb | hb
        · exact h.disjPB i hm.2 hb
        · exact hm.1 (List.mem_singleton.mp hb)
      · rw [hfq, hpq, hbq]
        intro i
        rcases h.cover i with hc | hc | hc
        · exact Or.inl hc
        · by_cases hib : i = be
          · exact Or.inr (Or.inr (List.mem_append.mpr (Or.inr (List.mem_singleton.mpr hib))))
          · exact Or.inr (Or.inl ((h.nodupP.mem_erase_iff).mpr ⟨hib, hc⟩))
        · exact Or.inr (Or.inr (List.mem_append.mpr (Or.inl hc)))
      · rw [hfq]
        intro i hi
        have hni : i ≠ be := fun he => h.disjFP i hi (he ▸ hbe_p)
        rw [helems i hni]
        exact h.statF i hi
      · rw [hpq]
        intro i hi
        have hm := (h.nodupP.mem_erase_iff).mp hi
        rw [helems i hm.1]
        exact h.statP i hm.2
      · rw [hbq]
        intro i hi
        rcases List.mem_append.mp hi with hm | hm
        · have hni : i ≠ be := fun he => hbe_nb (he ▸ hm)
          rw [helems i hni]
          exact h.statB i hm
        · rw [List.mem_singleton.mp hm, hbeStat]
          exact Or.inl rfl
  | compl be =>
    by_cases hne : (bq.elems be).status ≠ Blockstat.free
    · simpa [QOp.apply, hne] using h.complete_preserved bst be hne
    · simpa [QOp.apply, hne] using h

/-- The invariant holds after any sequence of queue operations. -/
theorem QInv.foldl_preserved (bst : Bool) (ops : List QOp) {bq : BlockifQueue}
    (h : QInv bq) : QInv (ops.foldl (QOp.apply bst) bq) := by
  induction ops generalizing bq with
  | nil => exact h
  | cons o ops ih => exact ih ((h.apply_preserved bst o))

/-- The invariant forces the three list sizes to add up to
`BLOCKIF_MAXREQ`. -/
theorem QInv.count {bq : BlockifQueue} (h : QInv bq) :
    bq.freeq.length + bq.pendq.length + bq.busyq.length = BLOCKIF_MAXREQ := by
  classical
  have h12 : (bq.freeq ++ bq.pendq).Nodup := by
    rw [List.nodup_append]
    exact ⟨h.nodupF, h.nodupP, fun a ha => h.disjFP a ha⟩
  have hnd : ((bq.freeq ++ bq.pendq) ++ bq.busyq).Nodup := by
    rw [List.nodup_append]
    refine ⟨h12, h.nodupB, fun a ha hb => ?_⟩
    rcases List.mem_append.mp ha with h1 | h2
    · exact h.disjFB a h1 hb
    · exact h.disjPB a h2 hb
  have huniv : ((bq.freeq ++ bq.pendq) ++ bq.busyq).toFinset = Finset.univ := by
    ext i
    simp only [List.mem_toFinset, Finset.mem_univ, iff_true, List.mem_append]
    rcases h.cover i with hc | hc | hc
    · exact Or.inl (Or.inl hc)
    · exact Or.inl (Or.inr hc)
    · exact Or.inr hc
  have hlen := List.toFinset_card_of_nodup hnd
  rw [huniv, Finset.card_univ, Fintype.card_fin] at hlen
  simpa [List.length_append, Nat.add_assoc] using hlen.symm

/-- The invariant forces each slot to be on exactly the one list that
matches its status class. -/
theorem QInv.classes {bq : BlockifQueue} (h : QInv bq) (i : SlotIdx) :
    ((bq.elems i).status = Blockstat.free →
      i ∈ bq.freeq ∧ i ∉ bq.pendq ∧ i ∉ bq.busyq) ∧
    (((bq.elems i).status = Blockstat.pend ∨ (bq.elems i).status = Blockstat.block) →
      i ∈ bq.pendq ∧ i ∉ bq.freeq ∧ i ∉ bq.busyq) ∧
    (((bq.elems i).status = Blockstat.busy ∨ (bq.elems i).status = Blockstat.done) →
      i ∈ bq.busyq ∧ i ∉ bq.freeq ∧ i ∉ bq.pendq) := by
  refine ⟨?_, ?_, ?_⟩
  · intro hs
    have hnp : i ∉ bq.pendq := by
      intro hm
      rcases h.statP i hm with h1 | h1 <;> rw [hs] at h1 <;> exact absurd h1 (by decide)
    have hnb : i ∉ bq.busyq := by
      intro hm
      rcases h.statB i hm with h1 | h1 <;> rw [hs] at h1 <;> exact absurd h1 (by decide)
    rcases h.cover i with hc | hc | hc
    · exact ⟨hc, hnp, hnb⟩
    · exact absurd hc hnp
    · exact absurd hc hnb
  · intro hs
    have hnf : i ∉ bq.freeq := by
      intro hm
      have := h.statF i hm
      rcases hs with h1 | h1 <;> rw [this] at h1 <;> exact absurd h1 (by decide)
    have hnb : i ∉ bq.busyq := by
      intro hm
      rcases h.statB i hm with h1 | h1 <;> rcases hs with h2 | h2 <;> rw [h1] at h2 <;>
        exact absurd h2 (by decide)
    rcases h.cover i with hc | hc | hc
    · exact absurd hc hnf
    · exact ⟨hc, hnf, hnb⟩
    · exact absurd hc hnb
  · intro hs
    have hnf : i ∉ bq.freeq := by
      intro hm
      have := h.statF i hm
      rcases hs with h1 | h1 <;> rw [this] at h1 <;> exact absurd h1 (by decide)
    have hnp : i ∉ bq.pendq := by
      intro hm
      rcases h.statP i hm with h1 | h1 <;> rcases hs with h2 | h2 <;> rw [h1] at h2 <;>
        exact absurd h2 (by decide)
    rcases h.cover i with hc | hc | hc
    · exact absurd hc hnf
    · exact absurd hc hnp
    · exact ⟨hc, hnf, hnp⟩

/-- C1: for every queue, after any sequence of enqueue
(`blockif_enqueue`), dequeue (`blockif_dequeue`) and complete
(`blockif_complete`) operations starting from the state built by
`blockif_open`, the sizes of `freeq`, `pendq` and `busyq` sum to
`BLOCKIF_MAXREQ`, and every slot is on exactly one of the three lists,
the one matching its status class (`FREE` on `freeq`; `PEND` or `BLOCK`
on `pendq`; `BUSY` or `DONE` on `busyq`). -/
theorem c1_slot_accounting (bst : Bool) (ops : List QOp) :
    let bq := ops.foldl (QOp.apply bst) initQueue
    (bq.freeq.length + bq.pendq.length + bq.busyq.length = BLOCKIF_MAXREQ) ∧
    ∀ i : SlotIdx,
      ((bq.elems i).status = Blockstat.free →
        i ∈ bq.freeq ∧ i ∉ bq.pendq ∧ i ∉ bq.busyq) ∧
      (((bq.elems i).status = Blockstat.pend ∨ (bq.elems i).status = Blockstat.block) →
        i ∈ bq.pendq ∧ i ∉ bq.freeq ∧ i ∉ bq.busyq) ∧
      (((bq.elems i).status = Blockstat.busy ∨ (bq.elems i).status = Blockstat.done) →
        i ∈ bq.busyq ∧ i ∉ bq.freeq ∧ i ∉ bq.pendq) := by
  intro bq
  have h : QInv bq := QInv.foldl_preserved bst ops qinv_init
  exact ⟨h.count, fun i => h.classes i⟩

/-- C2: with `bst_block` enabled, `blockif_enqueue` fails when `freeq`
is empty; otherwise it pops the head of `freeq`, sets the new slot
`BST_BLOCK` exactly when some slot on `pendq` or on `busyq` has
`block_key` equal to the request's `offset` (and `BST_PEND` otherwise),
appends the slot to the tail of `pendq`, and reports "newly pendable"
exactly when the new slot is `BST_PEND`. -/
theorem c2_enqueue_overlap (bq : BlockifQueue) (breq : BlockifReq) (op : Blockop) :
    (bq.freeq = [] → blockif_enqueue true bq breq op = (bq, false)) ∧
    (∀ be rest, bq.freeq = be :: rest →
      (bq.elems be).status = Blockstat.free →
      (blockif_enqueue true bq breq op).1.freeq = rest ∧
      (blockif_enqueue true bq breq op).1.pendq = bq.pendq ++ [be] ∧
      (((blockif_enqueue true bq breq op).1.elems be).status = Blockstat.block ↔
        (∃ t ∈ bq.pendq, (bq.elems t).block = breq.offset) ∨
        (∃ t ∈ bq.busyq, (bq.elems t).block = breq.offset)) ∧
      (((blockif_enqueue true bq breq op).1.elems be).status = Blockstat.pend ∨
       ((blockif_enqueue true bq breq op).1.elems be).status = Blockstat.block) ∧
      ((blockif_enqueue true bq breq op).2 = true ↔
        ((blockif_enqueue true bq breq op).1.elems be).status = Blockstat.pend)) := by
  constructor
  · intro hf
    simp [blockif_enqueue, hf]
  · intro be rest hf hst
    have hfq : (blockif_enqueue true bq breq op).1.freeq = rest := by
      simp [blockif_enqueue, hf, hst]
    have hpq : (blockif_enqueue true bq breq op).1.pendq = bq.pendq ++ [be] := by
      simp [blockif_enqueue, hf, hst]
    have hstatus : ((blockif_enqueue true bq breq op).1.elems be).status =
        (if ((bq.pendq.find? (fun t => decide ((bq.elems t).block = breq.offset))).isSome ||
             (bq.busyq.find? (fun t => decide ((bq.elems t).block = breq.offset))).isSome)
         then Blockstat.block else Blockstat.pend) := by
      simp [blockif_enqueue, hf, hst]
    have hret : (blockif_enqueue true bq breq op).2 =
        decide ((((blockif_enqueue true bq breq op).1.elems be).status = Blockstat.pend)) := by
      simp [blockif_enqueue, hf, hst]
    have hiff : ((bq.pendq.find? (fun t => decide ((bq.elems t).block = breq.offset))).isSome ||
        (bq.busyq.find? (fun t => decide ((bq.elems t).block = breq.offset))).isSome) = true ↔
        ((∃ t ∈ bq.pendq, (bq.elems t).block = breq.offset) ∨
         (∃ t ∈ bq.busyq, (bq.elems t).block = breq.offset)) := by
      simp [List.find?_isSome]
    refine ⟨hfq, hpq, ?_, ?_, ?_⟩
    · rw [hstatus]
      by_cases hab : ((bq.pendq.find? (fun t => decide ((bq.elems t).block = breq.offset))).isSome ||
          (bq.busyq.find? (fun t => decide ((bq.elems t).block = breq.offset))).isSome) = true
      · simp [hab, hiff.mp hab]
      · rw [Bool.not_eq_true] at hab
        simp only [hab, Bool.false_eq_true, if_false, reduceIte]
        constructor
        · intro hpb
          exact absurd hpb (by decide)
        · intro hex
          exact absurd (hiff.mpr hex) (by simp [hab])
    · rw [hstatus]
      by_cases hab : ((bq.pendq.find? (fun t => decide ((bq.elems t).block = breq.offset))).isSome ||
          (bq.busyq.find? (fun t => decide ((bq.elems t).block = breq.offset))).isSome) = true
      · simp [hab]
      · rw [Bool.not_eq_true] at hab
        simp [hab]
    · rw [hret]
      simp

/-- A fresh read request used to instantiate the enqueue theorem on the
freshly opened queue. -/
def c2Req : BlockifReq :=
  { id := 7, qidx := 0, offset := 4096, iov := [(0, 4096)], resid := 4096,
    ranges := [], align_info := BrAlignInfo.zero }

/-- Witness for C2: enqueueing a read on the freshly opened queue pops
slot 71 (the head of `freeq`), appends it to `pendq` as `BST_PEND`, and
returns true. -/
theorem c2_enqueue_overlap_witness :
    (blockif_enqueue true initQueue c2Req Blockop.read).1.pendq =
      [(⟨71, by decide⟩ : SlotIdx)] ∧
    ((blockif_enqueue true initQueue c2Req Blockop.read).1.elems
      (⟨71, by decide⟩ : SlotIdx)).status = Blockstat.pend ∧
    (blockif_enqueue true initQueue c2Req Blockop.read).2 = true := by
  have h := (c2_enqueue_overlap initQueue c2Req Blockop.read).2
    (⟨71, by decide⟩ : SlotIdx) ((List.finRange BLOCKIF_MAXREQ).reverse.tail)
    (by decide) (by decide)
  have hnb : ¬ ((∃ t ∈ initQueue.pendq, (initQueue.elems t).block = c2Req.offset) ∨
      (∃ t ∈ initQueue.busyq, (initQueue.elems t).block = c2Req.offset)) := by
    simp [initQueue]
  have hstat : ((blockif_enqueue true initQueue c2Req Blockop.read).1.elems
      (⟨71, by decide⟩ : SlotIdx)).status = Blockstat.pend := by
    rcases h.2.2.2.1 with hs | hs
    · exact hs
    · exact absurd (h.2.2.1.mp hs) hnb
  refine ⟨?_, hstat, h.2.2.2.2.mpr hstat⟩
  rw [h.2.1]
  simp [initQueue]

/-- C3: the `block_key` computed by `blockif_enqueue` equals
`offset + sum of iov lengths` for the data operations, but the
"sentinel" stored for every other operation (e.g. FLUSH) is
`1 << (sizeof(off_t) - 1) = 128`, not the maximum `off_t`
(`2^63 - 1`) that the source comment `off = OFF_MAX` intends. -/
theorem c3_block_key_sentinel :
    (∀ breq : BlockifReq, blockif_block_key Blockop.read breq =
        breq.offset + (breq.iov.map (fun v => v.2)).sum) ∧
    (∀ breq : BlockifReq, blockif_block_key Blockop.write breq =
        breq.offset + (breq.iov.map (fun v => v.2)).sum) ∧
    (∀ breq : BlockifReq, blockif_block_key Blockop.discard breq =
        breq.offset + (breq.iov.map (fun v => v.2)).sum) ∧
    (∀ breq : BlockifReq, blockif_block_key Blockop.flush breq = 128) ∧
    (128 : Nat) ≠ 2 ^ 63 - 1 := by
  exact ⟨fun _ => rfl, fun _ => rfl, fun _ => rfl, fun _ => rfl, by decide⟩

/-- C4: when `bypass_host_cache` is clear, no conversion is flagged; when
it is set, `need_conversion` is true exactly when the start offset
(`offset + sub_file_start_lba`), some iov base, or some iov length is
not a multiple of the sector size, and in that case the head/tail/bounce
geometry satisfies `head = start mod alignment`,
`aligned_dn_start = start - head`,
`tail = 0` when `end mod alignment = 0` and `alignment - end mod
alignment` otherwise, `aligned_dn_end = end - end mod alignment`, and
`bounced_size = head + org_size + tail`, where
`org_size` is the sum of the iov lengths and `end = start + org_size`. -/
theorem c4_alignment_info (bc : BlockifCtxt) (br : BlockifReq) :
    (bc.bypass_host_cache = false →
      (blockif_init_alignment_info bc br).need_conversion = false) ∧
    (bc.bypass_host_cache = true →
      ((blockif_init_alignment_info bc br).need_conversion = true ↔
        ((br.offset + bc.sub_file_start_lba) % bc.sectsz ≠ 0 ∨
         (∃ v ∈ br.iov, v.1 % bc.sectsz ≠ 0) ∨
         (∃ v ∈ br.iov, v.2 % bc.sectsz ≠ 0))) ∧
      ((blockif_init_alignment_info bc br).need_conversion = true →
        (blockif_init_alignment_info bc br).org_size =
          (br.iov.map (fun v => v.2)).sum ∧
        (blockif_init_alignment_info bc br).head =
          (br.offset + bc.sub_file_start_lba) % bc.sectsz ∧
        (blockif_init_alignment_info bc br).aligned_dn_start =
          (br.offset + bc.sub_file_start_lba) -
            (br.offset + bc.sub_file_start_lba) % bc.sectsz ∧
        (blockif_init_alignment_info bc br).tail =
          (if (br.offset + bc.sub_file_start_lba +
                (br.iov.map (fun v => v.2)).sum) % bc.sectsz = 0 then 0
           else bc.sectsz - (br.offset + bc.sub_file_start_lba +
                (br.iov.map (fun v => v.2)).sum) % bc.sectsz) ∧
        (blockif_init_alignment_info bc br).aligned_dn_end =
          (br.offset + bc.sub_file_start_lba +
            (br.iov.map (fun v => v.2)).sum) -
          (br.offset + bc.sub_file_start_lba +
            (br.iov.map (fun v => v.2)).sum) % bc.sectsz ∧
        (blockif_init_alignment_info bc br).bounced_size =
          (blockif_init_alignment_info bc br).head +
          (br.iov.map (fun v => v.2)).sum +
          (blockif_init_alignment_info bc br).tail)) := by
  have hkey : ∀ hby : bc.bypass_host_cache = true,
      blockif_init_alignment_info bc br =
      (if h : (decide ((br.offset + bc.sub_file_start_lba) % bc.sectsz = 0) &&
          br.iov.all (fun v => decide (v.1 % bc.sectsz = 0)) &&
          br.iov.all (fun v => decide (v.2 % bc.sectsz = 0))) = true then
        { br.align_info with
          alignment := bc.sectsz,
          is_offset_aligned := decide ((br.offset + bc.sub_file_start_lba) % bc.sectsz = 0),
          is_iov_base_aligned := br.iov.all (fun v => decide (v.1 % bc.sectsz = 0)),
          is_iov_len_aligned := br.iov.all (fun v => decide (v.2 % bc.sectsz = 0)),
          org_size := (br.iov.map (fun v => v.2)).sum,
          need_conversion := false }
      else
        { br.align_info with
          alignment := bc.sectsz,
          is_offset_aligned := decide ((br.offset + bc.sub_file_start_lba) % bc.sectsz = 0),
          is_iov_base_aligned := br.iov.all (fun v => decide (v.1 % bc.sectsz = 0)),
          is_iov_len_aligned := br.iov.all (fun v => decide (v.2 % bc.sectsz = 0)),
          org_size := (br.iov.map (fun v => v.2)).sum,
          need_conversion := true,
          head := (br.offset + bc.sub_file_start_lba) % bc.sectsz,
          aligned_dn_start := (br.offset + bc.sub_file_start_lba) -
            (br.offset + bc.sub_file_start_lba) % bc.sectsz,
          tail := (if (br.offset + bc.sub_file_start_lba +
                (br.iov.map (fun v => v.2)).sum) % bc.sectsz = 0 then 0
              else bc.sectsz - (br.offset + bc.sub_file_start_lba +
                (br.iov.map (fun v => v.2)).sum) % bc.sectsz),
          aligned_dn_end := (br.offset + bc.sub_file_start_lba +
              (br.iov.map (fun v => v.2)).sum) -
            (br.offset + bc.sub_file_start_lba +
              (br.iov.map (fun v => v.2)).sum) % bc.sectsz,
          bounced_size := (br.offset + bc.sub_file_start_lba) % bc.sectsz +
            (br.iov.map (fun v => v.2)).sum +
            (if (br.offset + bc.sub_file_start_lba +
                  (br.iov.map (fun v => v.2)).sum) % bc.sectsz = 0 then 0
             else bc.sectsz - (br.offset + bc.sub_file_start_lba +
                  (br.iov.map (fun v => v.2)).sum) % bc.sectsz) }) := by
    intro hby
    have hnf : ¬ (bc.bypass_host_cache = false) := by simp [hby]
    by_cases hall : (decide ((br.offset + bc.sub_file_start_lba) % bc.sectsz = 0) &&
        br.iov.all (fun v => decide (v.1 % bc.sectsz = 0)) &&
        br.iov.all (fun v => decide (v.2 % bc.sectsz = 0))) = true
    · rw [dif_pos hall]
      simp only [blockif_init_alignment_info, blockif_init_iov_align_info]
      rw [if_neg hnf, if_pos hall]
    · rw [dif_neg hall]
      simp only [blockif_init_alignment_info, blockif_init_iov_align_info]
      rw [if_neg hnf, if_neg hall]
  constructor
  · intro hby
    simp [blockif_init_alignment_info, hby]
  · intro hby
    rw [hkey hby]
    by_cases hall : (decide ((br.offset + bc.sub_file_start_lba) % bc.sectsz = 0) &&
        br.iov.all (fun v => decide (v.1 % bc.sectsz = 0)) &&
        br.iov.all (fun v => decide (v.2 % bc.sectsz = 0))) = true
    · rw [dif_pos hall]
      have hall2 := hall
      simp only [Bool.and_eq_true, decide_eq_true_eq, List.all_eq_true,
        decide_eq_true_eq] at hall2
      constructor
      · simp only [Bool.false_eq_true, false_iff]
        push_neg
        exact ⟨hall2.1.1, fun v hv => hall2.1.2 v hv, fun v hv => hall2.2 v hv⟩
      · intro hcontra
        exact (Bool.false_ne_true hcontra).elim
    · rw [dif_neg hall]
      constructor
      · simp only [true_iff]
        by_contra hno
        push_neg at hno
        apply hall
        simp only [Bool.and_eq_true, decide_eq_true_eq, List.all_eq_true,
          decide_eq_true_eq]
        exact ⟨⟨hno.1, fun v hv => hno.2.1 v hv⟩, fun v hv => hno.2.2 v hv⟩
      · intro _
        exact ⟨rfl, rfl, rfl, rfl, rfl, rfl⟩

/-- Context used by the alignment witness: direct I/O, 512-byte sectors,
no sub-range. -/
def bc4 : BlockifCtxt :=
  { bq_num := 1, sectsz := 512, sub_file_start_lba := 0, size := 1048576,
    bypass_host_cache := true, bst_block := true, rdonly := false,
    candiscard := false, isblk := false, max_discard_sectors := 0,
    max_discard_seg := 0, discard_sector_alignment := 0 }

/-- A misaligned request (offset 1, one 512-byte segment). -/
def br4 : BlockifReq :=
  { id := 1, qidx := 0, offset := 1, iov := [(0, 512)], resid := 512,
    ranges := [], align_info := BrAlignInfo.zero }

/-- Witness for C4: a request at offset 1 with one 512-byte segment
under direct I/O needs conversion, with head 1, tail 511 and bounce size
1024. -/
theorem c4_alignment_info_witness :
    (blockif_init_alignment_info bc4 br4).need_conversion = true ∧
    (blockif_init_alignment_info bc4 br4).head = 1 ∧
    (blockif_init_alignment_info bc4 br4).tail = 511 ∧
    (blockif_init_alignment_info bc4 br4).aligned_dn_start = 0 ∧
    (blockif_init_alignment_info bc4 br4).aligned_dn_end = 512 ∧
    (blockif_init_alignment_info bc4 br4).bounced_size = 1024 := by
  have h := (c4_alignment_info bc4 br4).2 rfl
  have hneed : (blockif_init_alignment_info bc4 br4).need_conversion = true := by
    apply h.1.mpr
    left
    decide
  have hf := h.2 hneed
  refine ⟨hneed, ?_, ?_, ?_, ?_, ?_⟩
  · rw [hf.2.1]; decide
  · rw [hf.2.2.2.1]; decide
  · rw [hf.2.2.1]; decide
  · rw [hf.2.2.2.2.1]; decide
  · rw [hf.2.2.2.2.2, hf.2.1, hf.2.2.2.1]; decide

/-- Environment where the bounce-buffer `posix_memalign` fails with
`ENOMEM` (a positive error number, as `posix_memalign` returns). -/
def env5 : AllocEnv :=
  { bounce := ENOMEM, headArea := 0, headRead := 0, tailArea := 0, tailRead := 0 }

/-- A direct-I/O context with one queue (512-byte sectors). -/
def bc5 : BlockifCtxt :=
  { bq_num := 1, sectsz := 512, sub_file_start_lba := 0, size := 1048576,
    bypass_host_cache := true, bst_block := true, rdonly := false,
    candiscard := false, isblk := false, max_discard_sectors := 0,
    max_discard_seg := 0, discard_sector_alignment := 0 }

/-- A misaligned read request (offset 1, one 512-byte segment). -/
def br5 : BlockifReq :=
  { id := 3, qidx := 0, offset := 1, iov := [(0, 512)], resid := 512,
    ranges := [], align_info := BrAlignInfo.zero }

/-- C5 (divergence witness): submitting a misaligned READ whose bounce
allocation fails with `ENOMEM` makes `blockif_request` return the error
`ENOMEM` — but only AFTER enqueueing the request, because
`blockif_init_bounce_iov` reports the failure as a positive value and
`blockif_request` only aborts on `err < 0`.  The claim requires the
error to be returned before the request touches the queue (no enqueue),
yet `pendq` grows from empty to one slot. -/
theorem c5_alloc_failure_still_enqueues :
    (blockif_request env5 bc5 initQueue br5 Blockop.read).2 = ENOMEM ∧
    initQueue.pendq.length = 0 ∧
    (blockif_request env5 bc5 initQueue br5 Blockop.read).1.pendq.length = 1 := by
  refine ⟨by decide, rfl, by decide⟩

/-- Environment where the bounce allocation succeeds but the `preadv` of
the head area fails with `errno = 5` (EIO). -/
def env6 : AllocEnv :=
  { bounce := 0, headArea := 0, headRead := 5, tailArea := 0, tailRead := 0 }

/-- A misaligned write request: offset 100, one 412-byte segment, so
`head = 100` and `tail = 0` against 512-byte sectors. -/
def br6 : BlockifReq :=
  { id := 4, qidx := 0, offset := 100, iov := [(0, 412)], resid := 412,
    ranges := [], align_info := BrAlignInfo.zero }

/-- The request as `blockif_request` hands it to
`blockif_init_bounced_write`: alignment info computed and the bounce
buffer allocated. -/
def br6b : BlockifReq :=
  (blockif_init_bounce_iov env6
    { br6 with align_info := blockif_init_alignment_info bc5 br6 }).2

/-- C6 (divergence witness): when the aligned pre-read of the head area
fails with `errno = 5`, `blockif_init_bounced_write` does NOT abort the
conversion — `blockif_read_head_or_tail_area` returns the positive errno
5 and the `ret < 0` check never fires, so the copy phases still run
(copying the unread head buffer) and the function returns 5; then
`blockif_request` likewise treats 5 as success and enqueues the WRITE,
returning 5 after the queue was touched. -/
theorem c6_head_read_failure_does_not_abort :
    blockif_init_bounced_write env6 br6b =
      (5, [BWAction.readHeadArea, BWAction.copyHead, BWAction.copyBody]) ∧
    (blockif_request env6 bc5 initQueue br6 Blockop.write).2 = 5 ∧
    (blockif_request env6 bc5 initQueue br6 Blockop.write).1.pendq.length = 1 := by
  refine ⟨by decide, by decide, by decide⟩

/-- The multi-range validation walk only ever fails with `EINVAL`. -/
theorem discardBuildArgs_error (bc : BlockifCtxt) (l : List DiscardRange) :
    ∀ (seg : Nat) (e : Int), discardBuildArgs bc l seg = Except.error e →
    e = EINVAL := by
  induction l with
  | nil =>
    intro seg e h
    simp [discardBuildArgs] at h
  | cons r rest ih =>
    intro seg e h
    simp only [discardBuildArgs] at h
    split_ifs at h with h1 h2
    · exact (Except.error.inj h).symm
    · exact (Except.error.inj h).symm
    · rcases hb : discardBuildArgs bc rest (seg + 1) with e2 | l2
      · rw [hb] at h
        exact (Except.error.inj h) ▸ ih (seg + 1) e2 hb
      · rw [hb] at h
        cases h

/-- If some record in the list fails range validation, the multi-range
walk returns `EINVAL` (either for that record or for an earlier
failure). -/
theorem discardBuildArgs_invalid (bc : BlockifCtxt) (l : List DiscardRange)
    (seg : Nat)
    (hex : ∃ dr ∈ l, discard_range_validate bc
      (dr.sector * DEV_BSIZE + bc.sub_file_start_lba)
      (dr.num_sectors * DEV_BSIZE) ≠ 0) :
    discardBuildArgs bc l seg = Except.error EINVAL := by
  induction l generalizing seg with
  | nil =>
    rcases hex with ⟨dr, hmem, _⟩
    cases hmem
  | cons r rest ih =>
    simp only [discardBuildArgs]
    by_cases hseg : bc.max_discard_seg < seg + 1
    · rw [if_pos hseg]
    · rw [if_neg hseg]
      by_cases hv : discard_range_validate bc
          (r.sector * DEV_BSIZE + bc.sub_file_start_lba)
          (r.num_sectors * DEV_BSIZE) ≠ 0
      · rw [if_pos hv]
      · rw [if_neg hv]
        rcases hex with ⟨dr, hmem, hbad⟩
        rcases List.mem_cons.mp hmem with heq | hmem2
        · exact absurd (heq ▸ hbad) hv
        · rw [ih (seg + 1) ⟨dr, hmem2, hbad⟩]

/-- Environment in which every host deallocation succeeds. -/
def env7 : DiscardEnv := { execErr := fun _ => 0 }

/-- A discardable, writable descriptor of 512 bytes. -/
def bc7 : BlockifCtxt :=
  { bq_num := 1, sectsz := 512, sub_file_start_lba := 0, size := 512,
    bypass_host_cache := false, bst_block := true, rdonly := false,
    candiscard := true, isblk := false, max_discard_sectors := 1,
    max_discard_seg := 1, discard_sector_alignment := 0 }

/-- A single-range discard (`iovcnt != 1`) whose range starts past the
device end. -/
def br7 : BlockifReq :=
  { id := 5, qidx := 0, offset := 1024, iov := [(0, 0), (0, 0)], resid := 512,
    ranges := [], align_info := BrAlignInfo.zero }

/-- Counterexample for C7: in the single-range convention
(`iovcnt != 1`) `blockif_process_discard` performs NO validation at all —
a range starting past the device end fails `discard_range_validate`,
yet the deallocation is issued against the backing store and the call
returns success with `resid = 0` instead of `EINVAL`. -/
theorem c7_single_range_skips_validation :
    discard_range_validate bc7 (br7.offset + bc7.sub_file_start_lba) br7.resid = -1 ∧
    blockif_process_discard env7 bc7 br7 = (0, [(1024, 512)], 0) := by
  exact ⟨by decide, by decide⟩

/-- C7 (amended): discard returns `EOPNOTSUPP` when `candiscard` is off
and `EROFS` on a read-only descriptor; `discard_range_validate` accepts
a range exactly when its size is non-zero, its end stays within
`size + sub_file_start_lba`, its size in sectors is at most
`max_discard_sectors`, and (when `discard_sector_alignment` is set) its
start sector is a multiple of the alignment; in the multi-range
convention (`iovcnt == 1`) a range failing validation yields `EINVAL`
before any deallocation is executed; and on success `resid` is set
to 0.  (The single-range convention `iovcnt != 1` performs no
validation, which is why the original claim fails.) -/
theorem c7_discard_check_amended (env : DiscardEnv) (bc : BlockifCtxt)
    (br : BlockifReq) :
    (∀ start size : Nat, discard_range_validate bc start size = 0 ↔
      (size ≠ 0 ∧ start + size ≤ bc.size + bc.sub_file_start_lba ∧
       size / DEV_BSIZE ≤ bc.max_discard_sectors ∧
       (bc.discard_sector_alignment ≠ 0 →
         (start / DEV_BSIZE) % bc.discard_sector_alignment = 0))) ∧
    (bc.candiscard = false →
      blockif_process_discard env bc br = (EOPNOTSUPP, [], br.resid)) ∧
    (bc.candiscard = true → bc.rdonly = true →
      blockif_process_discard env bc br = (EROFS, [], br.resid)) ∧
    (bc.candiscard = true → bc.rdonly = false → br.iov.length = 1 →
      (∃ dr ∈ br.ranges, discard_range_validate bc
          (dr.sector * DEV_BSIZE + bc.sub_file_start_lba)
          (dr.num_sectors * DEV_BSIZE) ≠ 0) →
      (blockif_process_discard env bc br).1 = EINVAL ∧
      (blockif_process_discard env bc br).2.1 = []) ∧
    ((blockif_process_discard env bc br).1 = 0 →
      (blockif_process_discard env bc br).2.2 = 0) := by
  refine ⟨?_, ?_, ?_, ?_, ?_⟩
  · intro start size
    simp only [discard_range_validate]
    split_ifs with h1 h2
    · constructor
      · intro h
        exact absurd h (by decide)
      · rintro ⟨ha, hb, _, _⟩
        rcases h1 with h1 | h1
        · exact ha h1
        · omega
    · constructor
      · intro h
        exact absurd h (by decide)
      · rintro ⟨_, _, hc, hd⟩
        rcases h2 with h2 | h2
        · omega
        · exact h2.2 (hd h2.1)
    · push_neg at h1 h2
      constructor
      · intro _
        exact ⟨h1.1, by omega, h2.1, h2.2⟩
      · intro _
        rfl
  · intro hcan
    simp [blockif_process_discard, hcan]
  · intro hcan hro
    simp [blockif_process_discard, hcan, hro]
  · intro hcan hro hiov hex
    have hb := discardBuildArgs_invalid bc br.ranges 0 hex
    simp [blockif_process_discard, hcan, hro, hiov, hb]
  · intro hz
    by_cases hcan : bc.candiscard = false
    · rw [blockif_process_discard, if_pos hcan] at hz
      have hz2 : EOPNOTSUPP = (0 : Int) := hz
      exact absurd hz2 (by decide)
    · by_cases hro : bc.rdonly = true
      · rw [blockif_process_discard, if_neg hcan, if_pos hro] at hz
        have hz2 : EROFS = (0 : Int) := hz
        exact absurd hz2 (by decide)
      · rw [blockif_process_discard, if_neg hcan, if_neg hro] at hz ⊢
        by_cases hiov : br.iov.length = 1
        · rw [if_pos hiov] at hz ⊢
          rcases hbuilt : discardBuildArgs bc br.ranges 0 with e | args
          · rw [hbuilt] at hz
            have he := discardBuildArgs_error bc br.ranges 0 e hbuilt
            have hz2 : e = (0 : Int) := hz
            rw [he] at hz2
            exact absurd hz2 (by decide)
          · rw [hbuilt] at hz
            dsimp only at hz ⊢
            by_cases hr : (discardExec env args 0).1 = 0
            · rw [if_pos hr]
            · rw [if_neg hr] at hz
              exact absurd hz hr
        · rw [if_neg hiov] at hz ⊢
          dsimp only at hz ⊢
          by_cases hr : (discardExec env
              [(br.offset + bc.sub_file_start_lba, br.resid)] 0).1 = 0
          · rw [if_pos hr]
          · rw [if_neg hr] at hz
            exact absurd hz hr


/-- A discardable descriptor with `discard=1024:4:8` limits. -/
def bc7m : BlockifCtxt :=
  { bq_num := 1, sectsz := 512, sub_file_start_lba := 0, size := 1048576,
    bypass_host_cache := false, bst_block := true, rdonly := false,
    candiscard := true, isblk := false, max_discard_sectors := 1024,
    max_discard_seg := 4, discard_sector_alignment := 8 }

/-- A multi-range discard whose single record starts at sector 7,
violating the alignment of 8. -/
def br7m : BlockifReq :=
  { id := 6, qidx := 0, offset := 0, iov := [(0, 16)], resid := 4096,
    ranges := [{ sector := 7, num_sectors := 8, flags := 0 }],
    align_info := BrAlignInfo.zero }

/-- Witness for the amended C7: a multi-range discard with a misaligned
record returns `EINVAL` with no deallocation issued. -/
theorem c7_discard_check_amended_witness :
    (blockif_process_discard env7 bc7m br7m).1 = EINVAL ∧
    (blockif_process_discard env7 bc7m br7m).2.1 = [] := by
  exact (c7_discard_check_amended env7 bc7m br7m).2.2.2.1 rfl rfl rfl
    ⟨{ sector := 7, num_sectors := 8, flags := 0 }, by decide, by decide⟩

/-- A one-queue context for the cancel theorems. -/
def bc8 : BlockifCtxt :=
  { bq_num := 1, sectsz := 512, sub_file_start_lba := 0, size := 1048576,
    bypass_host_cache := false, bst_block := true, rdonly := false,
    candiscard := false, isblk := false, max_discard_sectors := 0,
    max_discard_seg := 0, discard_sector_alignment := 0 }

/-- A request with an out-of-range queue index. -/
def br8a : BlockifReq :=
  { id := 9, qidx := 1, offset := 0, iov := [], resid := 0,
    ranges := [], align_info := BrAlignInfo.zero }

/-- A request with a valid queue index whose slot is on neither list. -/
def br8b : BlockifReq :=
  { id := 9, qidx := 0, offset := 0, iov := [], resid := 0,
    ranges := [], align_info := BrAlignInfo.zero }

/-- Counterexample for C8: the two "not found" outcomes of
`blockif_cancel` return different values — `ENOENT` (2) for an invalid
`qidx` but `-1` for a request on neither `pendq` nor `busyq` — so they
cannot both be the single NOT_FOUND error the claim (and the spec's
error table) assigns to them. -/
theorem c8_not_found_values_differ :
    (blockif_cancel bc8 initQueue br8a).2 = ENOENT ∧
    (blockif_cancel bc8 initQueue br8b).2 = -1 ∧
    (blockif_cancel bc8 initQueue br8b).2 ≠ (blockif_cancel bc8 initQueue br8a).2 := by
  exact ⟨by decide, by decide, by decide⟩

/-- C8 (amended): `blockif_cancel` validates `qidx` first, returning
`ENOENT` when it is out of range; a request found on `pendq` is
completed immediately (no I/O was issued, no callback fires) and cancel
returns 0; a request found on `busyq` (thread-pool backend) makes the
canceller wait for the slot to leave `BST_BUSY` and returns `-EBUSY`;
a request on neither list returns `-1`. -/
theorem c8_cancel_amended (bc : BlockifCtxt) (bq : BlockifQueue)
    (breq : BlockifReq) :
    (bc.bq_num ≤ breq.qidx → blockif_cancel bc bq breq = (bq, ENOENT)) ∧
    (breq.qidx < bc.bq_num →
      ∀ be, bq.pendq.find? (fun i => decide ((bq.elems i).req = some breq.id)) =
          some be →
        blockif_cancel bc bq breq = (blockif_complete bc.bst_block bq be, 0)) ∧
    (breq.qidx < bc.bq_num →
      bq.pendq.find? (fun i => decide ((bq.elems i).req = some breq.id)) = none →
      ∀ be, bq.busyq.find? (fun i => decide ((bq.elems i).req = some breq.id)) =
          some be →
        blockif_cancel bc bq breq = (bq, -EBUSY)) ∧
    (breq.qidx < bc.bq_num →
      bq.pendq.find? (fun i => decide ((bq.elems i).req = some breq.id)) = none →
      bq.busyq.find? (fun i => decide ((bq.elems i).req = some breq.id)) = none →
      blockif_cancel bc bq breq = (bq, -1)) := by
  refine ⟨?_, ?_, ?_, ?_⟩
  · intro hle
    simp [blockif_cancel, hle]
  · intro hlt be hfind
    simp [blockif_cancel, Nat.not_le.mpr hlt, hfind]
  · intro hlt hnone be hfind
    simp [blockif_cancel, Nat.not_le.mpr hlt, hnone, hfind]
  · intro hlt hnone hnone2
    simp [blockif_cancel, Nat.not_le.mpr hlt, hnone, hnone2]

/-- Witness for the amended C8: on the freshly opened queue a cancel for
an unknown request returns `-1`, and one with a bad queue index returns
`ENOENT`. -/
theorem c8_cancel_amended_witness :
    blockif_cancel bc8 initQueue br8b = (initQueue, -1) ∧
    blockif_cancel bc8 initQueue br8a = (initQueue, ENOENT) := by
  exact ⟨(c8_cancel_amended bc8 initQueue br8b).2.2.2 (by decide) rfl rfl,
         (c8_cancel_amended bc8 initQueue br8a).1 (by decide)⟩

/-- C9: for every device size and sector size, `blockif_chs` computes
exactly the standard VHD C/H/S values: total sectors `size / sectsz`
clamped to `65535*16*255`; at or above `65536*16*63` sectors the result
uses 255 sectors per track and 16 heads; otherwise it starts from 17
sectors per track, derives `heads = ceil((sectors/17)/1024)` floored to
at least 4, promotes to (31, 16) and then (63, 16) when the
cylinders-times-heads count reaches `1024 * heads` (or heads exceed 16),
and returns `cylinders = (sectors/spt)/heads`. -/
theorem c9_chs_is_vhd (bc : BlockifCtxt) : blockif_chs bc = blockif_chs_vhd bc := by
  unfold blockif_chs blockif_chs_vhd
  dsimp only
  have h1 : min (bc.size / bc.sectsz) (65535 * 16 * 255) =
      (if 65535 * 16 * 255 < bc.size / bc.sectsz then 65535 * 16 * 255
       else bc.size / bc.sectsz) := by
    rw [Nat.min_def]
    split_ifs <;> omega
  rw [h1]
  set s := (if 65535 * 16 * 255 < bc.size / bc.sectsz then 65535 * 16 * 255
            else bc.size / bc.sectsz) with hs
  by_cases hbig : 65536 * 16 * 63 ≤ s
  · rw [if_pos hbig, if_pos hbig]
  · rw [if_neg hbig, if_neg hbig]
    have h2 : ((s / 17) ⌈/⌉ (1024 : Nat)) = (s / 17 + 1023) / 1024 := by
      rw [Nat.ceilDiv_eq_add_pred_div]
      omega
    have h3 : max ((s / 17 + 1023) / 1024) 4 =
        (if (s / 17 + 1023) / 1024 < 4 then 4 else (s / 17 + 1023) / 1024) := by
      rw [Nat.max_def]
      split_ifs <;> omega
    rw [h2, h3]
    set hd := (if (s / 17 + 1023) / 1024 < 4 then 4 else (s / 17 + 1023) / 1024)
      with hhd
    have h4 : (1024 * hd ≤ s / 17) = (hd * 1024 ≤ s / 17) := by
      rw [Nat.mul_comm]
    simp only [h4]
    by_cases hp1 : hd * 1024 ≤ s / 17 ∨ 16 < hd
    · simp only [if_pos hp1]
      have h5 : (1024 * 16 ≤ s / 31) = (16 * 1024 ≤ s / 31) := by
        rw [Nat.mul_comm]
      simp only [h5]
      by_cases hp2 : 16 * 1024 ≤ s / 31
      · simp only [if_pos hp2]
      · simp only [if_neg hp2]
    · simp only [if_neg hp1]
      simp only [h4]
      by_cases hp2 : hd * 1024 ≤ s / 17
      · simp only [if_pos hp2]
      · simp only [if_neg hp2]

/-- C10: `discard_range_validate` floors the byte size to whole 512-byte
sectors before comparing against `max_discard_sectors` (and floors the
byte start to a sector index before the alignment check), so for every
`max_discard_sectors` value a range of `max_discard_sectors*512 + 511`
bytes passes validation even though it exceeds
`max_discard_sectors*512` bytes. -/
theorem c10_discard_size_floor (M : Nat) :
    (M * 512 + 511) / DEV_BSIZE = M ∧
    M * 512 < M * 512 + 511 ∧
    discard_range_validate
      { bq_num := 1, sectsz := 512, sub_file_start_lba := 0,
        size := (M + 1) * 512, bypass_host_cache := false, bst_block := true,
        rdonly := false, candiscard := true, isblk := false,
        max_discard_sectors := M, max_discard_seg := 1,
        discard_sector_alignment := 0 } 0 (M * 512 + 511) = 0 := by
  refine ⟨?_, by omega, ?_⟩
  · simp only [DEV_BSIZE]
    omega
  · simp only [discard_range_validate, DEV_BSIZE]
    have hA : ¬ (M * 512 + 511 = 0 ∨
        (M + 1) * 512 + 0 < 0 + (M * 512 + 511)) := by
      push_neg
      constructor
      · omega
      · omega
    have hB : ¬ (M < (M * 512 + 511) / 512 ∨
        ((0 : Nat) ≠ 0 ∧ 0 / 512 % 0 ≠ 0)) := by
      push_neg
      constructor
      · omega
      · intro h
        exact absurd rfl h
    rw [if_neg hA, if_neg hB]

end BlockIf
